import Mathlib

/-!
Shallow embedding of the core logic of `src/app.py` of the
where-should-we-eat repository: weighted selection (`spin_wheel`),
wheel geometry generation (`generate_wheel_svg`) and the spin
animation schedule, together with theorems settling the spec claims.

Python integers become `Nat` (the data model validates probabilities
into `[1, 100]`; the zero-weight degenerate case keeps 0 reachable),
Python float arithmetic on probabilities and angles is modelled
exactly over `Rat` (all quantities involved are ratios of integers),
and Python's `ZeroDivisionError` is modelled by `Except`.
-/

/-- One entry of the persisted option list: `{"name": ..., "probability": ...}`. -/
structure Restaurant where
  name : String
  probability : Nat
deriving Repr, DecidableEq

/-- The sum of the `probability` fields, as a rational
(`total = sum(weights)` on line 44 / `sum(r['probability'] for r in restaurants)`). -/
def totalProb (restaurants : List Restaurant) : Rat :=
  (restaurants.map (fun r => (r.probability : Rat))).sum

/-- Lines 44-49 of `spin_wheel`: normalize the weights, substituting a
uniform weight of 1 per option when the total is zero. -/
def normalizedWeights (restaurants : List Restaurant) : List Rat :=
  let weights : List Rat := restaurants.map (fun r => (r.probability : Rat))
  let total := weights.sum
  let weights' := if total = 0 then List.replicate restaurants.length (1 : Rat) else weights
  let total' := if total = 0 then (restaurants.length : Rat) else total
  weights'.map (· / total')

/-- Cumulative sums, as computed by `itertools.accumulate` inside
`random.choices`. -/
def cumSums (l : List Rat) : List Rat :=
  (List.range l.length).map (fun i => ((l.take (i + 1)).sum))

/-- `bisect.bisect_right` on a sorted list: the number of entries `≤ x`. -/
def bisectRight (l : List Rat) (x : Rat) : Nat :=
  (l.takeWhile (fun c => decide (c ≤ x))).length

/-- The index drawn by `random.choices(names, weights=normalized, k=1)` when
the underlying `random.random()` call returns `r`: CPython computes the
cumulative weights, scales `r` by their last entry, and bisects with the
high bound clamped to `len - 1`. -/
def choicesIndex (normalized : List Rat) (r : Rat) : Nat :=
  let cum := cumSums normalized
  min (normalized.length - 1) (bisectRight cum (r * cum.getLastD 0))

/-- `spin_wheel` (lines 35-51), with the output of the `random.random()`
draw passed in explicitly as `r`. -/
def spin_wheel (restaurants : List Restaurant) (r : Rat) : Option String :=
  match restaurants with
  | [] => none
  | _ :: _ =>
    let names := restaurants.map (fun x => x.name)
    names.get? (choicesIndex (normalizedWeights restaurants) r)

/-- The 10-color palette of line 66-67. -/
def colors : List String :=
  ["#FF6B6B", "#4ECDC4", "#45B7D1", "#FFA07A", "#98D8C8",
   "#F7DC6F", "#BB8FCE", "#85C1E2", "#F8B739", "#52C97F"]

/-- The geometric content of one `<path>`/`<text>` pair emitted by the
segment loop of `generate_wheel_svg` (lines 75-111). -/
structure Segment where
  startAngle : Rat
  sweep : Rat
  largeArc : Bool
  color : String
  label : String
deriving Repr, DecidableEq

/-- The label drawn for a restaurant (lines 105-107): names longer than 15
characters are truncated to 13 characters plus an ellipsis. -/
def segmentLabel (name : String) : String :=
  if name.length > 15 then String.mk (name.toList.take 13) ++ "..." else name

/-- The segment loop of `generate_wheel_svg` (lines 75-111): walk the list
accumulating `current_angle`, giving each restaurant a sweep of
`probability / total * 360`, the palette color cycled by index (overridden
with gold for the highlighted index), and its truncated label. -/
def segmentsAux (rs : List Restaurant) (total : Rat) (highlight : Option Nat)
    (idx : Nat) (currentAngle : Rat) : List Segment :=
  match rs with
  | [] => []
  | r :: rest =>
    let angle := ((r.probability : Rat) / total) * 360
    let baseColor := colors.getD (idx % colors.length) ""
    let color := if highlight = some idx then "#FFD700" else baseColor
    ⟨currentAngle, angle, decide (angle > 180), color, segmentLabel r.name⟩ ::
      segmentsAux rest total highlight (idx + 1) (currentAngle + angle)

/-- The full segment list produced by `generate_wheel_svg` for a non-empty
list (`current_angle` starts at 0, indices at 0, total from line 63). -/
def wheelSegments (restaurants : List Restaurant) (highlight : Option Nat) : List Segment :=
  segmentsAux restaurants (totalProb restaurants) highlight 0 0

/-- The geometry described by the returned SVG markup: either the empty
placeholder `<svg></svg>` or a wheel rotated by `rotation` with its segments. -/
inductive WheelSVG where
  | emptySVG
  | wheel (rotation : Rat) (segments : List Segment)
deriving Repr, DecidableEq

/-- `generate_wheel_svg` (lines 53-122). An empty list short-circuits to the
placeholder before any arithmetic. Otherwise `total_prob` is summed (line 63)
and the first loop iteration evaluates `probability / total_prob` (line 77),
which raises `ZeroDivisionError` in Python when the total is zero; that
fault is modelled as the `Except.error` branch. -/
def generate_wheel_svg (restaurants : List Restaurant) (rotation : Rat)
    (highlight : Option Nat) : Except String WheelSVG :=
  match restaurants with
  | [] => .ok .emptySVG
  | _ :: _ =>
    if totalProb restaurants = 0 then .error "ZeroDivisionError"
    else .ok (.wheel rotation (wheelSegments restaurants highlight))

/-- The number of full extra rotations (`spins = 5`, line 150). -/
def spins : Nat := 5

/-- The frame count of the animation (`frames = 60`, line 151). -/
def frames : Nat := 60

/-- The target reached by the animation loop, read off line 157:
`360 * spins + 360 * sum(probabilities through the winner) / total`. -/
def targetRotation (restaurants : List Restaurant) (winnerIdx : Nat) : Rat :=
  360 * spins + 360 * totalProb (restaurants.take (winnerIdx + 1)) / totalProb restaurants

/-- The ease-out cubic factor of lines 153-155:
`1 - (1 - frame/frames)^3`. -/
def easedProgress (frame : Nat) : Rat :=
  1 - (1 - (frame : Rat) / (frames : Rat)) ^ 3

/-- The rotation shown at a given frame for a given target rotation
(line 157: `rotation = eased_progress * target`). -/
def easedRotation (target : Rat) (frame : Nat) : Rat :=
  easedProgress frame * target

/-- The rotation of frame `frame` of the spin animation (lines 152-157). -/
def frameRotation (restaurants : List Restaurant) (winnerIdx frame : Nat) : Rat :=
  easedRotation (targetRotation restaurants winnerIdx) frame

/-- The whole animation schedule: the loop `for frame in range(frames)`
produces the 60 rotations for frames 0 through 59. -/
def animationSchedule (restaurants : List Restaurant) (winnerIdx : Nat) : List Rat :=
  (List.range frames).map (frameRotation restaurants winnerIdx)

/-- Modelled from the spec: the target rotation that places the *center* of
the winner's segment under the pointer, i.e. the configured full extra
rotations plus the angle swept by the segments strictly before the winner
plus half the winner's own sweep.  (The spec's design notes flag the
source's through-the-winner sum as an off-by-one; this definition follows
the spec's centering words for comparison.) -/
def centeredTargetRotation (restaurants : List Restaurant) (winnerIdx : Nat) : Rat :=
  360 * spins +
    (360 * totalProb (restaurants.take winnerIdx) +
      360 * ((restaurants.getD winnerIdx ⟨"", 0⟩).probability : Rat) / 2) /
      totalProb restaurants

theorem normalizedWeights_length (restaurants : List Restaurant) :
    (normalizedWeights restaurants).length = restaurants.length := by
  unfold normalizedWeights
  by_cases h : (restaurants.map (fun r => (r.probability : Rat))).sum = 0 <;>
    simp [h]

theorem choicesIndex_lt (normalized : List Rat) (r : Rat)
    (h : normalized ≠ []) : choicesIndex normalized r < normalized.length := by
  have hlen : 0 < normalized.length := List.length_pos.mpr h
  unfold choicesIndex
  exact lt_of_le_of_lt (min_le_left _ _) (by omega)

/-- C1: the claim says the final rotation centers the winner's segment
under the pointer; the code's formula (line 157) instead sums the
probabilities through the winner, reaching the segment's trailing edge.
At `[{A,10},{B,10},{C,80}]` with winner index 0 the code's target is
1836° while centering the winner needs 1818°. -/
theorem targetRotation_is_trailing_edge_not_center :
    targetRotation [⟨"A", 10⟩, ⟨"B", 10⟩, ⟨"C", 80⟩] 0 = 1836 ∧
    centeredTargetRotation [⟨"A", 10⟩, ⟨"B", 10⟩, ⟨"C", 80⟩] 0 = 1818 ∧
    targetRotation [⟨"A", 10⟩, ⟨"B", 10⟩, ⟨"C", 80⟩] 0 ≠
      centeredTargetRotation [⟨"A", 10⟩, ⟨"B", 10⟩, ⟨"C", 80⟩] 0 := by
  refine ⟨?_, ?_, ?_⟩ <;>
    norm_num [targetRotation, centeredTargetRotation, totalProb, spins]

theorem animationSchedule_getLast (restaurants : List Restaurant) (winnerIdx : Nat) :
    (animationSchedule restaurants winnerIdx).getLast? =
      some ((215999 / 216000) * targetRotation restaurants winnerIdx) := by
  unfold animationSchedule
  rw [List.getLast?_map]
  have h59 : (List.range frames).getLast? = some 59 := by decide
  rw [h59, Option.map_some']
  unfold frameRotation easedRotation
  norm_num [easedProgress, frames]

/-- C2 counterexample: for the single option `[{Only, 5}]` with winner
index 0 the target rotation is 2160°, but the last of the 60 frames
(frame 59, progress 59/60) reaches only `2160 * (1 - (1/60)^3) = 2159.99°`,
so the schedule's last rotation is not the target. -/
theorem lastFrame_ne_target_counterexample :
    (animationSchedule [⟨"Only", 5⟩] 0).getLast? ≠
      some (targetRotation [⟨"Only", 5⟩] 0) := by
  rw [animationSchedule_getLast]
  simp only [ne_eq, Option.some.injEq]
  norm_num [targetRotation, totalProb, spins]

/-- C2 (amended): the loop `for frame in range(frames)` runs frames 0..59
with `progress = frame/60`, so the last frame's rotation is
`(1 - (1/60)^3) = 215999/216000` times the target rotation, an undershoot
of `target/216000`, not the target exactly. -/
theorem lastFrame_eq_eased_target (restaurants : List Restaurant) (winnerIdx : Nat) :
    (animationSchedule restaurants winnerIdx).getLast? =
      some ((215999 / 216000) * targetRotation restaurants winnerIdx) :=
  animationSchedule_getLast restaurants winnerIdx

/-- C3: the claim (and the spec's error-handling taxonomy) says a non-empty
all-zero-weight list is handled internally and rendering raises no
division-by-zero fault; but `generate_wheel_svg` divides by `total_prob`
(line 77) without any zero-substitution, so Python raises
`ZeroDivisionError` on such input. -/
theorem render_zero_total_raises :
    generate_wheel_svg [⟨"A", 0⟩] 0 none = .error "ZeroDivisionError" := by
  simp [generate_wheel_svg, totalProb]

/-- C4: in `spin_wheel`, when the weights sum to zero, lines 45-49
substitute a uniform weight of 1 per option and recompute the total as the
list length, so the normalized weights are exactly `1/k` for a list of
length `k`, and the divisor `k` is nonzero. -/
theorem zero_total_normalizes_uniform (restaurants : List Restaurant)
    (hne : restaurants ≠ []) (hzero : totalProb restaurants = 0) :
    ((restaurants.length : Rat) ≠ 0) ∧
    normalizedWeights restaurants =
      List.replicate restaurants.length (1 / (restaurants.length : Rat)) := by
  have hlen : 0 < restaurants.length := List.length_pos.mpr hne
  have hcast : ((restaurants.length : Rat) ≠ 0) := by
    exact_mod_cast Nat.pos_iff_ne_zero.mp hlen
  refine ⟨hcast, ?_⟩
  unfold normalizedWeights
  unfold totalProb at hzero
  simp [hzero, List.map_replicate, one_div]

theorem zero_total_normalizes_uniform_witness :
    ((([⟨"A", 0⟩, ⟨"B", 0⟩] : List Restaurant).length : Rat) ≠ 0) ∧
    normalizedWeights [⟨"A", 0⟩, ⟨"B", 0⟩] =
      List.replicate ([⟨"A", 0⟩, ⟨"B", 0⟩] : List Restaurant).length
        (1 / ((([⟨"A", 0⟩, ⟨"B", 0⟩] : List Restaurant).length : Rat))) :=
  zero_total_normalizes_uniform [⟨"A", 0⟩, ⟨"B", 0⟩] (by decide)
    (by norm_num [totalProb])

/-- C7: `spin_wheel` returns `None` exactly on the empty list (line 37-38);
on a non-empty list it returns `Some name` where `name` is one of the
listed options' names.  (The embedding is a pure function of the list and
the random draw, so it has no side effects on the list.) -/
theorem spin_wheel_none_iff_empty (restaurants : List Restaurant) (r : Rat)
    (hne : restaurants ≠ []) :
    spin_wheel [] r = none ∧
    ∃ name, spin_wheel restaurants r = some name ∧
      name ∈ restaurants.map (fun x => x.name) := by
  refine ⟨rfl, ?_⟩
  match restaurants, hne with
  | a :: as, _ =>
    have hlt : choicesIndex (normalizedWeights (a :: as)) r <
        ((a :: as).map (fun x => x.name)).length := by
      rw [List.length_map, ← normalizedWeights_length]
      refine choicesIndex_lt _ r ?_
      have : 0 < (normalizedWeights (a :: as)).length := by
        rw [normalizedWeights_length]; simp
      exact List.length_pos.mp this
    refine ⟨((a :: as).map (fun x => x.name)).get ⟨_, hlt⟩, ?_, List.get_mem _ _ _⟩
    show ((a :: as).map (fun x => x.name)).get? _ = _
    exact List.get?_eq_get hlt

theorem spin_wheel_none_iff_empty_witness :
    spin_wheel [] (1 / 2) = none ∧
    ∃ name, spin_wheel [⟨"A", 1⟩, ⟨"B", 2⟩] (1 / 2) = some name ∧
      name ∈ ([⟨"A", 1⟩, ⟨"B", 2⟩] : List Restaurant).map (fun x => x.name) :=
  spin_wheel_none_iff_empty [⟨"A", 1⟩, ⟨"B", 2⟩] (1 / 2) (by decide)

/-- C8: on the empty option list `generate_wheel_svg` returns the empty
placeholder `<svg></svg>` (lines 55-56) for every rotation and every
highlight index, raising no error. -/
theorem render_empty_list_placeholder (rotation : Rat) (highlight : Option Nat) :
    generate_wheel_svg [] rotation highlight = .ok .emptySVG := rfl

theorem totalProb_nonneg (restaurants : List Restaurant) :
    0 ≤ totalProb restaurants := by
  unfold totalProb
  refine List.sum_nonneg ?_
  intro x hx
  simp only [List.mem_map] at hx
  obtain ⟨r, _, rfl⟩ := hx
  positivity

theorem targetRotation_nonneg (restaurants : List Restaurant) (winnerIdx : Nat) :
    0 ≤ targetRotation restaurants winnerIdx := by
  unfold targetRotation
  have h1 := totalProb_nonneg (restaurants.take (winnerIdx + 1))
  have h2 := totalProb_nonneg restaurants
  have hdiv : (0 : Rat) ≤
      360 * totalProb (restaurants.take (winnerIdx + 1)) / totalProb restaurants :=
    div_nonneg (by linarith) h2
  have hspins : (0 : Rat) ≤ 360 * (spins : Rat) := by norm_num
  linarith

theorem easedProgress_mono {i j : Nat} (h : i ≤ j) :
    easedProgress i ≤ easedProgress j := by
  unfold easedProgress frames
  have hc : (i : Rat) ≤ (j : Rat) := by exact_mod_cast h
  have hdiv : (i : Rat) / ((60 : Nat) : Rat) ≤ (j : Rat) / ((60 : Nat) : Rat) := by
    push_cast
    linarith
  set x : Rat := (i : Rat) / ((60 : Nat) : Rat) with hx
  set y : Rat := (j : Rat) / ((60 : Nat) : Rat) with hy
  nlinarith [sq_nonneg ((1 - x) + (1 - y)), sq_nonneg ((1 - x) - (1 - y)),
    sq_nonneg (1 - x), sq_nonneg (1 - y)]

/-- C6: for a nonnegative target rotation, the ease-out cubic schedule of
lines 152-157 starts at exactly 0 on frame 0 and is monotonically
non-decreasing: frame `i`'s rotation never exceeds frame `j`'s for
`i ≤ j`. -/
theorem easedRotation_monotone (target : Rat) (i j : Nat)
    (htarget : 0 ≤ target) (hij : i ≤ j) :
    easedRotation target 0 = 0 ∧ easedRotation target i ≤ easedRotation target j := by
  constructor
  · norm_num [easedRotation, easedProgress]
  · exact mul_le_mul_of_nonneg_right (easedProgress_mono hij) htarget

theorem easedRotation_monotone_witness :
    easedRotation 2160 0 = 0 ∧ easedRotation 2160 3 ≤ easedRotation 2160 7 :=
  easedRotation_monotone 2160 3 7 (by norm_num) (by norm_num)

theorem segmentsAux_map_sweep (rs : List Restaurant) (total : Rat)
    (highlight : Option Nat) (idx : Nat) (a : Rat) :
    (segmentsAux rs total highlight idx a).map (fun s => s.sweep) =
      rs.map (fun r => ((r.probability : Rat) / total) * 360) := by
  induction rs generalizing idx a with
  | nil => rfl
  | cons r rest ih => simp [segmentsAux, ih]

theorem segmentsAux_chain (rs : List Restaurant) (total : Rat)
    (highlight : Option Nat) (idx : Nat) (a : Rat) :
    List.Chain' (fun s t => t.startAngle = s.startAngle + s.sweep)
      (segmentsAux rs total highlight idx a) := by
  induction rs generalizing idx a with
  | nil => simp [segmentsAux]
  | cons r rest ih =>
    rw [segmentsAux, List.chain'_cons']
    refine ⟨?_, ih _ _⟩
    intro y hy
    cases rest with
    | nil => simp [segmentsAux] at hy
    | cons r2 rest2 =>
      rw [segmentsAux] at hy
      simp only [List.head?_cons, Option.mem_def, Option.some.injEq] at hy
      subst hy
      simp

theorem segmentsAux_head_startAngle (r : Restaurant) (rs : List Restaurant)
    (total : Rat) (highlight : Option Nat) (idx : Nat) (a : Rat) :
    (segmentsAux (r :: rs) total highlight idx a).head?.map (fun s => s.startAngle) =
      some a := rfl

theorem segmentsAux_color (rs : List Restaurant) (total : Rat)
    (highlight : Option Nat) (idx : Nat) (a : Rat) (j : Nat) (hj : j < rs.length) :
    ((segmentsAux rs total highlight idx a).map (fun s => s.color)).getD j "" =
      if highlight = some (idx + j) then "#FFD700"
      else colors.getD ((idx + j) % colors.length) "" := by
  induction rs generalizing idx a j with
  | nil => simp at hj
  | cons r rest ih =>
    cases j with
    | zero => simp [segmentsAux]
    | succ j' =>
      have hj' : j' < rest.length := by simpa using hj
      rw [segmentsAux, List.map_cons, List.getD_cons_succ,
        ih (idx + 1) _ j' hj', show idx + 1 + j' = idx + (j' + 1) from by omega]

/-- C5: walking the list in order, each segment's sweep is
`probability / total * 360` (line 77), segments start at 0° and each
starts where the previous one ends (`current_angle` accumulation,
lines 75 and 111), the sweeps sum to 360°, and on
`[{A,10},{B,10},{C,80}]` the sweeps are 36°, 36°, 288° with C spanning
72° to 72° + 288° = 360°. -/
theorem wheel_geometry (restaurants : List Restaurant)
    (hpos : 0 < totalProb restaurants) :
    ((wheelSegments restaurants none).map (fun s => s.sweep) =
      restaurants.map (fun r => ((r.probability : Rat) / totalProb restaurants) * 360)) ∧
    (((wheelSegments restaurants none).map (fun s => s.sweep)).sum = 360) ∧
    ((wheelSegments restaurants none).head?.map (fun s => s.startAngle) =
      restaurants.head?.map (fun _ => (0 : Rat))) ∧
    List.Chain' (fun s t => t.startAngle = s.startAngle + s.sweep)
      (wheelSegments restaurants none) ∧
    ((wheelSegments [⟨"A", 10⟩, ⟨"B", 10⟩, ⟨"C", 80⟩] none).map
        (fun s => (s.startAngle, s.sweep)) = [(0, 36), (36, 36), (72, 288)] ∧
      (72 : Rat) + 288 = 360) := by
  refine ⟨?_, ?_, ?_, ?_, ?_, by norm_num⟩
  · exact segmentsAux_map_sweep restaurants (totalProb restaurants) none 0 0
  · show ((segmentsAux restaurants (totalProb restaurants) none 0 0).map
        (fun s => s.sweep)).sum = 360
    rw [segmentsAux_map_sweep]
    have hfun : (fun r : Restaurant => ((r.probability : Rat) / totalProb restaurants) * 360) =
        fun r : Restaurant => (r.probability : Rat) * (360 / totalProb restaurants) := by
      funext r; ring
    have htot : (restaurants.map fun r => (r.probability : Rat)).sum = totalProb restaurants := rfl
    rw [hfun, List.sum_map_mul_right, htot, mul_comm,
      div_mul_cancel₀ _ (ne_of_gt hpos)]
  · cases restaurants with
    | nil => rfl
    | cons r rest => exact segmentsAux_head_startAngle r rest _ none 0 0
  · exact segmentsAux_chain restaurants (totalProb restaurants) none 0 0
  · norm_num [wheelSegments, segmentsAux, totalProb]

theorem wheel_geometry_witness :
    ((wheelSegments [⟨"A", 10⟩, ⟨"B", 10⟩, ⟨"C", 80⟩] none).map (fun s => s.sweep) =
      ([⟨"A", 10⟩, ⟨"B", 10⟩, ⟨"C", 80⟩] : List Restaurant).map
        (fun r => ((r.probability : Rat) /
          totalProb [⟨"A", 10⟩, ⟨"B", 10⟩, ⟨"C", 80⟩]) * 360)) ∧
    (((wheelSegments [⟨"A", 10⟩, ⟨"B", 10⟩, ⟨"C", 80⟩] none).map (fun s => s.sweep)).sum = 360) ∧
    ((wheelSegments [⟨"A", 10⟩, ⟨"B", 10⟩, ⟨"C", 80⟩] none).head?.map (fun s => s.startAngle) =
      ([⟨"A", 10⟩, ⟨"B", 10⟩, ⟨"C", 80⟩] : List Restaurant).head?.map (fun _ => (0 : Rat))) ∧
    List.Chain' (fun s t => t.startAngle = s.startAngle + s.sweep)
      (wheelSegments [⟨"A", 10⟩, ⟨"B", 10⟩, ⟨"C", 80⟩] none) ∧
    ((wheelSegments [⟨"A", 10⟩, ⟨"B", 10⟩, ⟨"C", 80⟩] none).map
        (fun s => (s.startAngle, s.sweep)) = [(0, 36), (36, 36), (72, 288)] ∧
      (72 : Rat) + 288 = 360) :=
  wheel_geometry [⟨"A", 10⟩, ⟨"B", 10⟩, ⟨"C", 80⟩] (by norm_num [totalProb])

/-- C9: `render` is order-stable: for any permutation `l'` of `l` the total
is unchanged and each segment's sweep is still
`probability / total * 360` for its associated option; only the boundaries
(start angles) move. -/
theorem render_order_stable (l l' : List Restaurant) (hperm : l.Perm l')
    (hpos : 0 < totalProb l) :
    totalProb l' = totalProb l ∧
    (wheelSegments l' none).map (fun s => s.sweep) =
      l'.map (fun r => ((r.probability : Rat) / totalProb l) * 360) := by
  have hsum : totalProb l' = totalProb l := by
    show (l'.map (fun r => (r.probability : Rat))).sum =
      (l.map (fun r => (r.probability : Rat))).sum
    exact ((hperm.map (fun r => (r.probability : Rat))).sum_eq).symm
  refine ⟨hsum, ?_⟩
  show (segmentsAux l' (totalProb l') none 0 0).map (fun s => s.sweep) = _
  rw [segmentsAux_map_sweep, hsum]

theorem render_order_stable_witness :
    totalProb [⟨"B", 2⟩, ⟨"A", 1⟩] = totalProb [⟨"A", 1⟩, ⟨"B", 2⟩] ∧
    (wheelSegments [⟨"B", 2⟩, ⟨"A", 1⟩] none).map (fun s => s.sweep) =
      ([⟨"B", 2⟩, ⟨"A", 1⟩] : List Restaurant).map
        (fun r => ((r.probability : Rat) / totalProb [⟨"A", 1⟩, ⟨"B", 2⟩]) * 360) :=
  render_order_stable [⟨"A", 1⟩, ⟨"B", 2⟩] [⟨"B", 2⟩, ⟨"A", 1⟩]
    (List.Perm.swap (⟨"B", 2⟩ : Restaurant) (⟨"A", 1⟩ : Restaurant) [])
    (by norm_num [totalProb])

/-- C10 counterexample: the claim quantifies over every non-empty option
list, but on `[{A,0},{B,0}]` with the out-of-range highlight index 5 the
render still raises `ZeroDivisionError` (line 77 divides by the zero
total), so it is not error-free for every non-empty list. -/
theorem highlight_out_of_range_still_raises :
    generate_wheel_svg [⟨"A", 0⟩, ⟨"B", 0⟩] 0 (some 5) = .error "ZeroDivisionError" := by
  simp [generate_wheel_svg, totalProb]

/-- C10 (amended): for every non-empty option list with positive total
weight, rendering succeeds for every highlight index; with highlight
absent or out of range every segment keeps its palette color (the fixed
10-color palette cycled by position), and an in-range highlight index
turns exactly that one segment gold, leaving all other segments' colors
unchanged. -/
theorem highlight_colors (restaurants : List Restaurant) (rotation : Rat)
    (hpos : 0 < totalProb restaurants) :
    (∀ highlight, generate_wheel_svg restaurants rotation highlight =
      .ok (.wheel rotation (wheelSegments restaurants highlight))) ∧
    (∀ highlight,
      (highlight = none ∨ ∃ k, highlight = some k ∧ restaurants.length ≤ k) →
      ∀ j, j < restaurants.length →
        ((wheelSegments restaurants highlight).map (fun s => s.color)).getD j "" =
          colors.getD (j % colors.length) "") ∧
    (∀ i, i < restaurants.length → ∀ j, j < restaurants.length →
      ((wheelSegments restaurants (some i)).map (fun s => s.color)).getD j "" =
        if j = i then "#FFD700" else colors.getD (j % colors.length) "") := by
  have hne : restaurants ≠ [] := by
    rintro rfl
    norm_num [totalProb] at hpos
  refine ⟨?_, ?_, ?_⟩
  · intro highlight
    cases restaurants with
    | nil => exact absurd rfl hne
    | cons a as =>
      simp only [generate_wheel_svg]
      rw [if_neg (ne_of_gt hpos)]
  · rintro highlight (rfl | ⟨k, rfl, hk⟩) j hj
    · show ((segmentsAux restaurants (totalProb restaurants) none 0 0).map
          (fun s => s.color)).getD j "" = _
      rw [segmentsAux_color restaurants _ none 0 0 j hj]
      simp
    · show ((segmentsAux restaurants (totalProb restaurants) (some k) 0 0).map
          (fun s => s.color)).getD j "" = _
      rw [segmentsAux_color restaurants _ (some k) 0 0 j hj]
      have hkj : ¬(some k = some (0 + j)) := by
        simp only [Option.some.injEq]
        omega
      rw [if_neg hkj]
      simp
  · intro i hi j hj
    show ((segmentsAux restaurants (totalProb restaurants) (some i) 0 0).map
        (fun s => s.color)).getD j "" = _
    rw [segmentsAux_color restaurants _ (some i) 0 0 j hj]
    simp only [Nat.zero_add]
    by_cases hji : j = i
    · subst hji
      simp
    · rw [if_neg (by simpa using Ne.symm hji), if_neg hji]

theorem highlight_colors_witness :
    (∀ highlight, generate_wheel_svg [⟨"A", 1⟩] 0 highlight =
      .ok (.wheel 0 (wheelSegments [⟨"A", 1⟩] highlight))) ∧
    (∀ highlight,
      (highlight = none ∨
        ∃ k, highlight = some k ∧ ([⟨"A", 1⟩] : List Restaurant).length ≤ k) →
      ∀ j, j < ([⟨"A", 1⟩] : List Restaurant).length →
        ((wheelSegments [⟨"A", 1⟩] highlight).map (fun s => s.color)).getD j "" =
          colors.getD (j % colors.length) "") ∧
    (∀ i, i < ([⟨"A", 1⟩] : List Restaurant).length →
      ∀ j, j < ([⟨"A", 1⟩] : List Restaurant).length →
        ((wheelSegments [⟨"A", 1⟩] (some i)).map (fun s => s.color)).getD j "" =
          if j = i then "#FFD700" else colors.getD (j % colors.length) "") :=
  highlight_colors [⟨"A", 1⟩] 0 (by norm_num [totalProb])
